import Mathlib

/-!
Shallow embedding of the Honest Grader core (`grader.py`): the strictness
switch of the prompt builder (`_strictness_instructions`), the letter-grade
table (`_default_letter_grade`), the tolerant JSON extraction
(`_safe_json_parse`), the result normalization (`_postprocess`) and the
fallback path of `grade_work`.

Modelling conventions: Python strings are `List Char`; JSON values are the
inductive `JVal` with numbers as `ℚ` (exact rational arithmetic stands in
for IEEE floats; `round(x, 1)` is modelled as exact half-even rounding of
`x * 10`); Python dicts are insertion-ordered association lists; code that
can raise returns `Except PyErr`.  Library routines (`str.strip`,
`str.splitlines`, `str.lower`, `float(...)`, `json.loads`) are modelled on
the character ranges the program manипulates: `str.strip`/`str.isspace`
uses the ASCII/Latin-1 whitespace characters plus U+2028/U+2029,
`float(str)` accepts sign/digits/decimal point/exponent (no underscores,
no inf/nan), and `json.loads` is an RFC 8259 parser (no NaN/Infinity
extension, no surrogate-pair combining).
-/

/-- Errors a modelled Python exception can carry. -/
inductive PyErr where
  | attributeError
  | typeError
  | valueError
  deriving DecidableEq

/-- The backquote character, written via its code point. -/
def tickChar : Char := Char.ofNat 96

/-- Three backquotes, the code-fence marker `_safe_json_parse` looks for. -/
def tick3 : List Char := [tickChar, tickChar, tickChar]

/-- Characters stripped by Python `str.strip()` (whitespace per `str.isspace`,
restricted to the ASCII/Latin-1 range plus the Unicode line/paragraph
separators). -/
def isPySpace (c : Char) : Bool :=
  c == ' ' || c == '\t' || c == '\n' || c == '\r' || c == Char.ofNat 11 ||
  c == Char.ofNat 12 || c == Char.ofNat 28 || c == Char.ofNat 29 ||
  c == Char.ofNat 30 || c == Char.ofNat 133 || c == Char.ofNat 160 ||
  c == '\u2028' || c == '\u2029'

/-- Line boundaries recognised by Python `str.splitlines`:
LF, CR, VT, FF, FS, GS, RS, NEL, LINE SEPARATOR, PARAGRAPH SEPARATOR
(CRLF is handled as a single boundary in `splitlinesAux`). -/
def isLineBreakChar (c : Char) : Bool :=
  c == '\n' || c == '\r' || c == Char.ofNat 11 || c == Char.ofNat 12 ||
  c == Char.ofNat 28 || c == Char.ofNat 29 || c == Char.ofNat 30 ||
  c == Char.ofNat 133 || c == '\u2028' || c == '\u2029'

/-- Remove the trailing run of characters satisfying `p` (the right half of
Python `str.strip`/`str.strip(chars)`). -/
def stripTrailIf (p : Char → Bool) (cs : List Char) : List Char :=
  (cs.reverse.dropWhile p).reverse

/-- Python `str.strip(chars)`: drop the leading and trailing runs of
characters satisfying `p`. -/
def pyStripIf (p : Char → Bool) (cs : List Char) : List Char :=
  (stripTrailIf p cs).dropWhile p

/-- Python `str.strip()` with no argument: strip whitespace. -/
def pyStrip (cs : List Char) : List Char := pyStripIf isPySpace cs

/-- Python `str.lower()` on the ASCII range. -/
def pyLower (cs : List Char) : List Char :=
  cs.map (fun c => if 65 ≤ c.toNat ∧ c.toNat ≤ 90 then Char.ofNat (c.toNat + 32) else c)

/-- Worker for Python `str.splitlines`: accumulate the current line
(in reverse) and split at every line-boundary character, treating CRLF as
one boundary and dropping a trailing boundary. -/
def splitlinesAux : List Char → List Char → List (List Char)
  | [], acc => if acc.isEmpty then [] else [acc.reverse]
  | c :: rest, acc =>
    if isLineBreakChar c then
      acc.reverse ::
        (match rest with
         | [] => []
         | b :: rest2 =>
           if c = '\r' ∧ b = '\n' then splitlinesAux rest2 []
           else splitlinesAux (b :: rest2) [])
    else splitlinesAux rest (c :: acc)

/-- Python `str.splitlines()`. -/
def pySplitlines (cs : List Char) : List (List Char) := splitlinesAux cs []

/-- Python `"\n".join(lines)`. -/
def joinNL : List (List Char) → List Char
  | [] => []
  | [l] => l
  | l :: ls => l ++ '\n' :: joinNL ls

/-- JSON values as produced by `json.loads` (numbers collapsed to `ℚ`). -/
inductive JVal where
  | null
  | bool (b : Bool)
  | num (q : ℚ)
  | str (s : List Char)
  | arr (items : List JVal)
  | obj (fields : List (List Char × JVal))

/-- Dict lookup (`d[k]` / the hit side of `d.get`). -/
def getKey : List (List Char × JVal) → List Char → Option JVal
  | [], _ => none
  | (k, v) :: rest, key => if k = key then some v else getKey rest key

/-- Dict assignment `d[k] = v`: update in place if the key exists
(keeping its position), else append, as Python insertion order does. -/
def setKey : List (List Char × JVal) → List Char → JVal → List (List Char × JVal)
  | [], key, v => [(key, v)]
  | (k, w) :: rest, key, v =>
    if k = key then (key, v) :: rest else (k, w) :: setKey rest key v

/-- Python `d.get(key, default)`. -/
def getD (fields : List (List Char × JVal)) (key : List Char) (d : JVal) : JVal :=
  (getKey fields key).getD d

/-- Python `d.get(key)` / `d.get(key, None)`: `JVal.null` plays `None`. -/
def getOrNull (fields : List (List Char × JVal)) (key : List Char) : JVal :=
  getD fields key JVal.null

/-- Test for Python `is None` on a fetched value. -/
def JVal.isNull : JVal → Bool
  | .null => true
  | _ => false

/-- Python truthiness of a JSON value. -/
def pyTruthy : JVal → Bool
  | .null => false
  | .bool b => b
  | .num q => decide (q ≠ 0)
  | .str s => !s.isEmpty
  | .arr l => !l.isEmpty
  | .obj l => !l.isEmpty

/-- Python `for item in x`: lists yield elements, strings yield one-character
strings, dicts yield their keys; anything else raises `TypeError`. -/
def pyIterate : JVal → Except PyErr (List JVal)
  | .arr xs => .ok xs
  | .str s => .ok (s.map (fun c => JVal.str [c]))
  | .obj fs => .ok (fs.map (fun kv => JVal.str kv.1))
  | _ => .error .typeError

/-- Value of a digit string (most significant first). -/
def digitsToNat (ds : List Char) : Nat :=
  ds.foldl (fun n c => 10 * n + (c.toNat - 48)) 0

/-- Python `float(str)` on its decimal core: optional surrounding
whitespace, optional sign, digits with an optional decimal point and an
optional exponent.  Modelled without underscores or inf/nan words. -/
def parseFloatStr (cs : List Char) : Except PyErr ℚ :=
  let t := pyStrip cs
  let sgnT : ℚ × List Char :=
    match t with
    | '-' :: r => (-1, r)
    | '+' :: r => (1, r)
    | _ => (1, t)
  let t1 := sgnT.2
  let ip := t1.takeWhile (fun c => c.isDigit)
  let r1 := t1.dropWhile (fun c => c.isDigit)
  let fpR : List Char × List Char :=
    match r1 with
    | '.' :: r => (r.takeWhile (fun c => c.isDigit), r.dropWhile (fun c => c.isDigit))
    | _ => ([], r1)
  if ip = [] ∧ fpR.1 = [] then .error .valueError
  else
    let mant : ℚ := (digitsToNat ip : ℚ) + (digitsToNat fpR.1 : ℚ) / ((10 : ℚ) ^ fpR.1.length)
    match fpR.2 with
    | [] => .ok (sgnT.1 * mant)
    | e :: r3 =>
      if e = 'e' ∨ e = 'E' then
        let esgnR : Bool × List Char :=
          match r3 with
          | '-' :: r => (true, r)
          | '+' :: r => (false, r)
          | _ => (false, r3)
        let ed := esgnR.2.takeWhile (fun c => c.isDigit)
        let r5 := esgnR.2.dropWhile (fun c => c.isDigit)
        if ed = [] ∨ r5 ≠ [] then .error .valueError
        else if esgnR.1 then .ok (sgnT.1 * mant / ((10 : ℚ) ^ digitsToNat ed))
        else .ok (sgnT.1 * mant * ((10 : ℚ) ^ digitsToNat ed))
      else .error .valueError

/-- Python `float(x)` on a JSON value: numbers pass through, bools become
0/1, strings are parsed, everything else raises `TypeError`. -/
def pyFloat : JVal → Except PyErr ℚ
  | .num q => .ok q
  | .bool b => .ok (if b then 1 else 0)
  | .str s => parseFloatStr s
  | _ => .error .typeError

/-- Floor of a rational, written computably (`q.num / q.den` with Euclidean
integer division; the denominator is positive, so this is the floor --
see `ratFloor_eq_floor` below). -/
def ratFloor (q : ℚ) : ℤ := q.num / q.den

/-- Round to the nearest integer, ties to even (Python `round`). -/
def roundHalfEven (q : ℚ) : ℤ :=
  if q - (ratFloor q : ℚ) < 1/2 then ratFloor q
  else if 1/2 < q - (ratFloor q : ℚ) then ratFloor q + 1
  else if ratFloor q % 2 = 0 then ratFloor q else ratFloor q + 1

/-- Python `round(q, 1)` in exact rational arithmetic. -/
def pyRound1 (q : ℚ) : ℚ := (roundHalfEven (q * 10) : ℚ) / 10

/-- `_default_letter_grade` from `grader.py`: the threshold chain. -/
def default_letter_grade (pct : ℚ) : List Char :=
  if 97 ≤ pct then ("A+").data
  else if 93 ≤ pct then ("A").data
  else if 90 ≤ pct then ("A-").data
  else if 87 ≤ pct then ("B+").data
  else if 83 ≤ pct then ("B").data
  else if 80 ≤ pct then ("B-").data
  else if 77 ≤ pct then ("C+").data
  else if 73 ≤ pct then ("C").data
  else if 70 ≤ pct then ("C-").data
  else if 67 ≤ pct then ("D+").data
  else if 63 ≤ pct then ("D").data
  else if 60 ≤ pct then ("D-").data
  else ("F").data

/-- Keys of the grade-result dict. -/
def kOverallScore : List Char := ("overall_score").data

def kOverallMax : List Char := ("overall_max").data

def kRubricBreakdown : List Char := ("rubric_breakdown").data

def kLetterGrade : List Char := ("letter_grade").data

def kPercent : List Char := ("percent").data

def kScore : List Char := ("score").data

def kMaxScore : List Char := ("max_score").data

def kAssumptions : List Char := ("assumptions").data

def kStrengths : List Char := ("strengths").data

def kTopFixes : List Char := ("top_fixes").data

def kRewriteSuggestions : List Char := ("rewrite_suggestions").data

def kFinalComment : List Char := ("final_comment").data

/-- One iteration of the summation loop in `_postprocess` (lines 168-173):
`try: total += float(item.get("score", 0)); total_max += float(item.get("max_score", 10)) except: pass`.
A non-dict item raises on `.get` before either addition; a score that fails
conversion skips both additions; a max that fails conversion skips only the
second one. -/
def itemContrib (item : JVal) : ℚ × ℚ :=
  match item with
  | .obj ifields =>
    match pyFloat (getD ifields kScore (JVal.num 0)) with
    | .error _ => (0, 0)
    | .ok s =>
      match pyFloat (getD ifields kMaxScore (JVal.num 10)) with
      | .error _ => (s, 0)
      | .ok m => (s, m)
  | _ => (0, 0)

/-- The `(total, total_max)` accumulated by the loop in `_postprocess`. -/
def sumContribs (items : List JVal) : ℚ × ℚ :=
  items.foldl (fun acc it => (acc.1 + (itemContrib it).1, acc.2 + (itemContrib it).2)) (0, 0)

/-- Lines 161-177 of `_postprocess`: when `overall_score` or `overall_max`
is `None` (absent or null), iterate `rubric_breakdown` (default `[]`),
sum the per-item contributions, and store the totals into the fields that
were `None`, keeping any field that was present. -/
def fillOveralls (fields : List (List Char × JVal)) :
    Except PyErr (List (List Char × JVal)) :=
  if (getOrNull fields kOverallScore).isNull || (getOrNull fields kOverallMax).isNull then
    match pyIterate (getD fields kRubricBreakdown (JVal.arr [])) with
    | .error e => .error e
    | .ok items =>
      .ok (setKey
        (setKey fields kOverallScore
          (if (getOrNull fields kOverallScore).isNull then JVal.num (sumContribs items).1
           else getOrNull fields kOverallScore))
        kOverallMax
        (if (getOrNull fields kOverallMax).isNull then JVal.num (sumContribs items).2
         else getOrNull fields kOverallMax))
  else .ok fields

/-- Lines 179-182 of `_postprocess`:
`try: pct = (float(overall) / float(overall_max)) * 100 if float(overall_max) > 0 else 0.0 except: pct = 0.0`.
The condition is evaluated first, so a failing `float(overall_max)` or a
failing `float(overall)` both land in the `except` branch. -/
def pctFromFields (fields : List (List Char × JVal)) : ℚ :=
  match pyFloat (getOrNull fields kOverallMax) with
  | .error _ => 0
  | .ok m =>
    if 0 < m then
      match pyFloat (getOrNull fields kOverallScore) with
      | .error _ => 0
      | .ok s => s / m * 100
    else 0

/-- `_postprocess` from `grader.py`.  A non-dict argument raises
`AttributeError` on the first `.get`; otherwise fill the overall fields,
compute `pct`, derive `letter_grade` when the present one is falsy, and
store `percent = round(pct, 1)`. -/
def postprocess (result : JVal) : Except PyErr JVal :=
  match result with
  | .obj fields =>
    match fillOveralls fields with
    | .error e => .error e
    | .ok fields1 =>
      .ok (JVal.obj (setKey
        (if pyTruthy (getOrNull fields1 kLetterGrade) then fields1
         else setKey fields1 kLetterGrade
           (JVal.str (default_letter_grade (pctFromFields fields1))))
        kPercent (JVal.num (pyRound1 (pctFromFields fields1)))))
  | _ => .error .attributeError

/-- Whitespace accepted between JSON tokens (RFC 8259). -/
def isJsonWs (c : Char) : Bool :=
  c == ' ' || c == '\t' || c == '\n' || c == '\r'

/-- Skip insignificant JSON whitespace. -/
def skipWs (cs : List Char) : List Char := cs.dropWhile isJsonWs

/-- The opening-brace and closing-brace characters, via their code points. -/
def lbraceChar : Char := Char.ofNat 123

def rbraceChar : Char := Char.ofNat 125

/-- Hex digit value. -/
def hexVal (c : Char) : Option Nat :=
  if 48 ≤ c.toNat ∧ c.toNat ≤ 57 then some (c.toNat - 48)
  else if 97 ≤ c.toNat ∧ c.toNat ≤ 102 then some (c.toNat - 87)
  else if 65 ≤ c.toNat ∧ c.toNat ≤ 70 then some (c.toNat - 55)
  else none

/-- Parse the body of a JSON string after the opening quote; raw control
characters below 0x20 are rejected as `json.loads` does in strict mode. -/
def jsonStringBody : Nat → List Char → Option (List Char × List Char)
  | 0, _ => none
  | _, [] => none
  | fuel + 1, c :: rest =>
    if c = '"' then some ([], rest)
    else if c = '\\' then
      match rest with
      | [] => none
      | e :: rest2 =>
        if e = 'u' then
          match rest2 with
          | h1 :: h2 :: h3 :: h4 :: rest3 =>
            match hexVal h1, hexVal h2, hexVal h3, hexVal h4 with
            | some a, some b, some cc, some d =>
              (jsonStringBody fuel rest3).map
                (fun p => (Char.ofNat (((a * 16 + b) * 16 + cc) * 16 + d) :: p.1, p.2))
            | _, _, _, _ => none
          | _ => none
        else
          let ch : Option Char :=
            if e = '"' then some '"'
            else if e = '\\' then some '\\'
            else if e = '/' then some '/'
            else if e = 'b' then some (Char.ofNat 8)
            else if e = 'f' then some (Char.ofNat 12)
            else if e = 'n' then some '\n'
            else if e = 'r' then some '\r'
            else if e = 't' then some '\t'
            else none
          match ch with
          | none => none
          | some ch => (jsonStringBody fuel rest2).map (fun p => (ch :: p.1, p.2))
    else if c.toNat < 32 then none
    else (jsonStringBody fuel rest).map (fun p => (c :: p.1, p.2))

/-- Parse a JSON number (RFC 8259 grammar) into an exact rational. -/
def jsonNumber (cs : List Char) : Option (ℚ × List Char) :=
  let sgnR : ℚ × List Char :=
    match cs with
    | '-' :: r => (-1, r)
    | _ => (1, cs)
  let ip := sgnR.2.takeWhile (fun c => c.isDigit)
  let r1 := sgnR.2.dropWhile (fun c => c.isDigit)
  if ip = [] then none
  else if 1 < ip.length ∧ ip.headD '0' = '0' then none
  else
    let fpR : Option (List Char × List Char) :=
      match r1 with
      | '.' :: r =>
        let fp := r.takeWhile (fun c => c.isDigit)
        if fp = [] then none else some (fp, r.dropWhile (fun c => c.isDigit))
      | _ => some ([], r1)
    match fpR with
    | none => none
    | some (fp, r2) =>
      let mant : ℚ := sgnR.1 * ((digitsToNat ip : ℚ) + (digitsToNat fp : ℚ) / ((10 : ℚ) ^ fp.length))
      match r2 with
      | e :: r3 =>
        if e = 'e' ∨ e = 'E' then
          let esgnR : Bool × List Char :=
            match r3 with
            | '-' :: r => (true, r)
            | '+' :: r => (false, r)
            | _ => (false, r3)
          let ed := esgnR.2.takeWhile (fun c => c.isDigit)
          if ed = [] then none
          else
            let r4 := esgnR.2.dropWhile (fun c => c.isDigit)
            if esgnR.1 then some (mant / ((10 : ℚ) ^ digitsToNat ed), r4)
            else some (mant * ((10 : ℚ) ^ digitsToNat ed), r4)
        else some (mant, r2)
      | [] => some (mant, [])

mutual

/-- Parse one JSON value (fuelled recursive-descent core of `json.loads`). -/
def jsonValue : Nat → List Char → Option (JVal × List Char)
  | 0, _ => none
  | fuel + 1, cs =>
    let cs := skipWs cs
    match cs with
    | [] => none
    | c :: rest =>
      if c = 'n' then
        match rest with
        | 'u' :: 'l' :: 'l' :: r => some (.null, r)
        | _ => none
      else if c = 't' then
        match rest with
        | 'r' :: 'u' :: 'e' :: r => some (.bool true, r)
        | _ => none
      else if c = 'f' then
        match rest with
        | 'a' :: 'l' :: 's' :: 'e' :: r => some (.bool false, r)
        | _ => none
      else if c = '"' then
        (jsonStringBody (rest.length + 1) rest).map (fun p => (.str p.1, p.2))
      else if c = '[' then
        let r1 := skipWs rest
        match r1 with
        | ']' :: r2 => some (.arr [], r2)
        | _ => jsonItems fuel r1 []
      else if c = lbraceChar then
        let r1 := skipWs rest
        match r1 with
        | c2 :: r2 => if c2 = rbraceChar then some (.obj [], r2) else jsonMembers fuel r1 []
        | [] => none
      else if c.isDigit ∨ c = '-' then
        (jsonNumber cs).map (fun p => (.num p.1, p.2))
      else none

/-- Parse the non-empty element list of a JSON array (after `[`). -/
def jsonItems : Nat → List Char → List JVal → Option (JVal × List Char)
  | 0, _, _ => none
  | fuel + 1, cs, acc =>
    match jsonValue fuel cs with
    | none => none
    | some (v, r) =>
      let r1 := skipWs r
      match r1 with
      | ',' :: r2 => jsonItems fuel r2 (v :: acc)
      | ']' :: r2 => some (.arr (v :: acc).reverse, r2)
      | _ => none

/-- Parse the non-empty member list of a JSON object (after the opening
brace); duplicate keys keep the last value, as `json.loads` does. -/
def jsonMembers : Nat → List Char → List (List Char × JVal) → Option (JVal × List Char)
  | 0, _, _ => none
  | fuel + 1, cs, acc =>
    match skipWs cs with
    | '"' :: r =>
      match jsonStringBody (r.length + 1) r with
      | none => none
      | some (key, r1) =>
        match skipWs r1 with
        | ':' :: r2 =>
          match jsonValue fuel r2 with
          | none => none
          | some (v, r3) =>
            let acc2 := setKey acc key v
            match skipWs r3 with
            | ',' :: r4 => jsonMembers fuel r4 acc2
            | c :: r4 => if c = rbraceChar then some (.obj acc2, r4) else none
            | [] => none
        | _ => none
    | _ => none

end

/-- `json.loads`: strip surrounding whitespace, parse one value, require the
input to be exhausted.  The fuel is generous for the input length. -/
def pyJsonLoads (cs : List Char) : Option JVal :=
  let t := pyStrip cs
  match jsonValue (2 * t.length + 8) t with
  | some (v, r) => if r = [] then some v else none
  | none => none

/-- The language tags `_safe_json_parse` recognises after a code fence. -/
def jsonTagWord : List Char := ("json").data

def javascriptTagWord : List Char := ("javascript").data

/-- The tag test `lines[0].lower().strip() in {"json", "javascript"}`. -/
def tagMatch (l0 : List Char) : Bool :=
  decide (pyStrip (pyLower l0) = jsonTagWord ∨ pyStrip (pyLower l0) = javascriptTagWord)

/-- The fence-and-tag removal step of `_safe_json_parse`: on text starting
with three backquotes, strip all leading and trailing backquotes, then
drop a first line that is a bare language tag and re-join the rest. -/
def defenceText (cleaned : List Char) : List Char :=
  if cleaned.take 3 = tick3 then
    match pySplitlines (pyStripIf (fun ch => ch == tickChar) cleaned) with
    | [] => pyStripIf (fun ch => ch == tickChar) cleaned
    | l0 :: restLines =>
      if tagMatch l0 then joinNL restLines
      else pyStripIf (fun ch => ch == tickChar) cleaned
  else cleaned

/-- `_safe_json_parse` from `grader.py`: strip whitespace, remove a code
fence and language tag, strip again and parse as JSON.  `none` models the
raised `JSONDecodeError`. -/
def safe_json_parse (text : List Char) : Option JVal :=
  pyJsonLoads (pyStrip (defenceText (pyStrip text)))

/-- The two fixed advisory strings of the fallback object. -/
def advisory1 : List Char := ("The model response was not valid JSON.").data

def advisory2 : List Char :=
  ("Grading could not be parsed, so only the raw output is shown.").data

/-- The fallback dict literal built in `grade_work` when `_safe_json_parse`
raises (lines 201-214 of `grader.py`). -/
def fallbackFields (raw : List Char) : List (List Char × JVal) :=
  [ (kAssumptions, JVal.arr [JVal.str advisory1, JVal.str advisory2]),
    (kRubricBreakdown, JVal.arr []),
    (kOverallScore, JVal.num 0),
    (kOverallMax, JVal.num 0),
    (kLetterGrade, JVal.str (("N/A").data)),
    (kStrengths, JVal.arr []),
    (kTopFixes, JVal.arr []),
    (kRewriteSuggestions, JVal.arr []),
    (kFinalComment, JVal.str (pyStrip raw)) ]

/-- The response-normalizer slice of `grade_work` (lines 197-216): parse the
raw model text, fall back to the fixed object on a parse error, and run
`_postprocess` on the outcome. -/
def grade_work_normalize (raw : List Char) : Except PyErr JVal :=
  match safe_json_parse raw with
  | some parsed => postprocess parsed
  | none => postprocess (JVal.obj (fallbackFields raw))

/-- Python `level or "medium"`: `None` and the empty string are falsy. -/
def pyOrDefault (x : Option (List Char)) (d : List Char) : List Char :=
  match x with
  | none => d
  | some s => if s = [] then d else s

/-- The three instruction fragments of `_strictness_instructions`. -/
def easyText : List Char :=
  ("Be supportive but still honest. Assume minor mistakes are common. Do not over-penalize small grammar issues unless they hurt clarity.").data

def hardText : List Char :=
  ("Be strict and direct. Penalize weak evidence, vague claims, sloppy structure, and unclear writing. Point out missing requirements explicitly.").data

def balancedText : List Char :=
  ("Be balanced and honest. Reward clarity and strong evidence. Penalize confusion, missing rubric items, and weak reasoning.").data

/-- `_strictness_instructions` from `grader.py`:
`level = (level or "medium").lower().strip()` then a three-way switch. -/
def strictness_instructions (level : Option (List Char)) : List Char :=
  if pyStrip (pyLower (pyOrDefault level (("medium").data))) = ("easy").data then easyText
  else if pyStrip (pyLower (pyOrDefault level (("medium").data))) = ("hard").data then hardText
  else balancedText

/-- The percent formula exactly as claim C2 states it: when both fields
convert and the max is positive, `round(100 * overall_score / overall_max, 1)`,
else `0.0`. -/
def claimPercent (sv mv : JVal) : ℚ :=
  match pyFloat mv with
  | .error _ => 0
  | .ok m =>
    if 0 < m then
      match pyFloat sv with
      | .error _ => 0
      | .ok s => pyRound1 (100 * s / m)
    else 0

/-- Wrap a document in a triple-backquote fenced block with a tag line. -/
def wrapFence (tag : List Char) (d : List Char) : List Char :=
  tick3 ++ tag ++ '\n' :: d ++ '\n' :: tick3

/-- Python-style default on a modelled `float(...)` call: the value on
success, the default on an exception. -/
def exceptD (e : Except PyErr ℚ) (d : ℚ) : ℚ :=
  match e with
  | .ok q => q
  | .error _ => d

/-- Did the modelled `float(...)` call succeed? -/
def isOkB (e : Except PyErr ℚ) : Bool :=
  match e with
  | .ok _ => true
  | .error _ => false

/-- Test rubric entry with numeric score 5 and numeric max 10. -/
def exItemA : JVal := JVal.obj [(kScore, JVal.num 5), (kMaxScore, JVal.num 10)]

/-- Test input object: `overall_max` present (50), `overall_score` absent. -/
def exC3fields : List (List Char × JVal) :=
  [(kOverallMax, JVal.num 50), (kRubricBreakdown, JVal.arr [exItemA])]

/-- Test rubric entry whose `max_score` fails numeric conversion. -/
def exItemB : JVal := JVal.obj [(kScore, JVal.num 5), (kMaxScore, JVal.str (("abc").data))]

/-- Test input object carrying only `exItemB` in its breakdown. -/
def exC6fields : List (List Char × JVal) := [(kRubricBreakdown, JVal.arr [exItemB])]

/-- Test input object with both overall fields present and no letter grade. -/
def exC4fields : List (List Char × JVal) :=
  [(kOverallScore, JVal.num 15), (kOverallMax, JVal.num 20)]

/-- Test input object with overall 15/20 and letter grade B already set. -/
def exC2fields : List (List Char × JVal) :=
  [(kOverallScore, JVal.num 15), (kOverallMax, JVal.num 20),
   (kLetterGrade, JVal.str (("B").data))]

/-! ### Lemmas about the dict operations -/

theorem getKey_setKey_self (l : List (List Char × JVal)) (k : List Char) (v : JVal) :
    getKey (setKey l k v) k = some v := by
  induction l with
  | nil => simp [setKey, getKey]
  | cons kv rest ih =>
    by_cases h : kv.1 = k
    · simp [setKey, h, getKey]
    · simp [setKey, h, getKey, ih]

theorem getKey_setKey_ne (l : List (List Char × JVal)) (k key : List Char) (v : JVal)
    (h : key ≠ k) : getKey (setKey l k v) key = getKey l key := by
  have hk' : ¬ k = key := fun hh => h hh.symm
  induction l with
  | nil => simp [setKey, getKey, hk']
  | cons kv rest ih =>
    by_cases hkk : kv.1 = k
    · have h2 : ¬ kv.1 = key := by rw [hkk]; exact hk'
      simp [setKey, hkk, getKey, hk', h2]
    · simp [setKey, hkk, getKey, ih]

/-! ### Lemmas about dropWhile-based stripping -/

theorem dropWhile_idem (p : Char → Bool) (l : List Char) :
    (l.dropWhile p).dropWhile p = l.dropWhile p := by
  induction l with
  | nil => rfl
  | cons c l ih =>
    by_cases h : p c
    · simpa [List.dropWhile_cons, h] using ih
    · simp [List.dropWhile_cons, h]

theorem dropWhile_append_of_ne_nil (p : Char → Bool) (l m : List Char)
    (h : l.dropWhile p ≠ []) : (l ++ m).dropWhile p = l.dropWhile p ++ m := by
  induction l with
  | nil => exact absurd rfl h
  | cons c l ih =>
    by_cases hc : p c
    · have h' : l.dropWhile p ≠ [] := by simpa [List.dropWhile_cons, hc] using h
      simp [List.dropWhile_cons, hc, ih h']
    · simp [List.dropWhile_cons, hc]

theorem dropWhile_eq_self_of_head (p : Char → Bool) (m : List Char)
    (h : ∀ c, m.head? = some c → p c = false) : m.dropWhile p = m := by
  cases m with
  | nil => rfl
  | cons c m => simp [List.dropWhile_cons, h c rfl]

theorem head?_dropWhile_false (p : Char → Bool) (m : List Char) (c : Char)
    (h : (m.dropWhile p).head? = some c) : p c = false := by
  induction m with
  | nil => simp [List.dropWhile] at h
  | cons a m ih =>
    by_cases ha : p a
    · exact ih (by simpa [List.dropWhile_cons, ha] using h)
    · have : a = c := by simpa [List.dropWhile_cons, ha] using h
      simpa [← this] using ha

theorem head?_append_left (l m : List Char) (h : l ≠ []) :
    (l ++ m).head? = l.head? := by
  cases l with
  | nil => exact absurd rfl h
  | cons c l => rfl

theorem stripTrailIf_append (p : Char → Bool) (l m : List Char)
    (h : stripTrailIf p m ≠ []) : stripTrailIf p (l ++ m) = l ++ stripTrailIf p m := by
  have hm : m.reverse.dropWhile p ≠ [] := by
    intro hh
    exact h (by simp [stripTrailIf, hh])
  simp [stripTrailIf, List.reverse_append, dropWhile_append_of_ne_nil p _ _ hm]

theorem stripTrailIf_idem (p : Char → Bool) (l : List Char) :
    stripTrailIf p (stripTrailIf p l) = stripTrailIf p l := by
  simp [stripTrailIf, dropWhile_idem]

theorem stripTrailIf_last (p : Char → Bool) (l : List Char) (c : Char)
    (h : (stripTrailIf p l).reverse.head? = some c) : p c = false := by
  have : (l.reverse.dropWhile p).head? = some c := by
    simpa [stripTrailIf] using h
  exact head?_dropWhile_false p _ c this

theorem stripTrailIf_eq_self_of_last (p : Char → Bool) (l : List Char)
    (h : ∀ c, l.reverse.head? = some c → p c = false) : stripTrailIf p l = l := by
  have : l.reverse.dropWhile p = l.reverse := dropWhile_eq_self_of_head p _ h
  simp [stripTrailIf, this]

theorem stripTrailIf_append_single (p : Char → Bool) (l : List Char) (c : Char)
    (h : p c = false) : stripTrailIf p (l ++ [c]) = l ++ [c] := by
  refine stripTrailIf_eq_self_of_last p _ ?_
  intro c' hc'
  simp [List.reverse_append] at hc'
  rwa [← hc']

theorem pyStripIf_idem (p : Char → Bool) (l : List Char) :
    pyStripIf p (pyStripIf p l) = pyStripIf p l := by
  unfold pyStripIf
  have htrail : stripTrailIf p ((stripTrailIf p l).dropWhile p) =
      (stripTrailIf p l).dropWhile p := by
    refine stripTrailIf_eq_self_of_last p _ ?_
    intro c hc
    rcases hd : (stripTrailIf p l).dropWhile p with _ | ⟨a, rest⟩
    · simp [hd] at hc
    · have hsplit := List.takeWhile_append_dropWhile (p := p) (l := stripTrailIf p l)
      have : (stripTrailIf p l).reverse.head? = some c := by
        rw [← hsplit, List.reverse_append, head?_append_left]
        · rw [hd] at hc ⊢; exact hc
        · rw [hd]; simp
      exact stripTrailIf_last p l c this
  rw [htrail, dropWhile_idem]

theorem pyStrip_idem (l : List Char) : pyStrip (pyStrip l) = pyStrip l :=
  pyStripIf_idem isPySpace l

theorem pyJsonLoads_strip (l : List Char) : pyJsonLoads (pyStrip l) = pyJsonLoads l := by
  unfold pyJsonLoads
  rw [pyStrip_idem]

/-! ### Lemmas about splitlines and join -/

theorem splitlinesAux_cons_nobreak (c : Char) (rest acc : List Char)
    (h : isLineBreakChar c = false) :
    splitlinesAux (c :: rest) acc = splitlinesAux rest (c :: acc) := by
  cases rest with
  | nil => rw [splitlinesAux.eq_2]; simp [h]
  | cons b rest2 => rw [splitlinesAux.eq_3]; simp [h]

theorem splitlinesAux_cons_nl (rest acc : List Char) :
    splitlinesAux ('\n' :: rest) acc = acc.reverse :: splitlinesAux rest [] := by
  cases rest with
  | nil =>
    rw [splitlinesAux.eq_2]
    simp [splitlinesAux, isLineBreakChar]
  | cons b rest2 =>
    rw [splitlinesAux.eq_3]
    have h1 : isLineBreakChar '\n' = true := by decide
    have h2 : ¬ ('\n' = '\r') := by decide
    simp [h1, h2]

theorem splitlinesAux_ne_nil (cs acc : List Char) (h : cs ≠ [] ∨ acc ≠ []) :
    splitlinesAux cs acc ≠ [] := by
  induction cs generalizing acc with
  | nil =>
    rcases h with h | h
    · exact absurd rfl h
    · rw [splitlinesAux.eq_1]
      simp [h]
  | cons c rest ih =>
    by_cases hb : isLineBreakChar c
    · cases rest with
      | nil => rw [splitlinesAux.eq_2]; simp [hb]
      | cons b rest2 => rw [splitlinesAux.eq_3]; simp [hb]
    · rw [splitlinesAux_cons_nobreak c rest acc (by simpa using hb)]
      exact ih _ (Or.inr (by simp))

theorem splitlinesAux_line (t rest acc : List Char)
    (h : ∀ c ∈ t, isLineBreakChar c = false) :
    splitlinesAux (t ++ '\n' :: rest) acc = (acc.reverse ++ t) :: splitlinesAux rest [] := by
  induction t generalizing acc with
  | nil => simpa using splitlinesAux_cons_nl rest acc
  | cons c t' ih =>
    have hc : isLineBreakChar c = false := h c (by simp)
    rw [List.cons_append, splitlinesAux_cons_nobreak c _ acc hc,
      ih _ (fun d hd => h d (by simp [hd]))]
    simp

theorem joinNL_cons_ne (x : List Char) (L : List (List Char)) (h : L ≠ []) :
    joinNL (x :: L) = x ++ '\n' :: joinNL L := by
  cases L with
  | nil => exact absurd rfl h
  | cons y L' => rfl

theorem joinNL_splitlinesAux_newline (d acc : List Char)
    (h : ∀ c ∈ d, isLineBreakChar c = true → c = '\n') :
    joinNL (splitlinesAux (d ++ ['\n']) acc) = acc.reverse ++ d := by
  induction d generalizing acc with
  | nil =>
    rw [List.nil_append, splitlinesAux_cons_nl]
    simp [splitlinesAux, joinNL]
  | cons c d' ih =>
    by_cases hc : c = '\n'
    · subst hc
      rw [List.cons_append, splitlinesAux_cons_nl]
      have hne := splitlinesAux_ne_nil (d' ++ ['\n']) [] (Or.inl (by simp))
      rw [joinNL_cons_ne _ _ hne, ih [] (fun e he hb => h e (by simp [he]) hb)]
      simp
    · have hcb : isLineBreakChar c = false := by
        by_cases hb : isLineBreakChar c
        · exact absurd (h c (by simp) hb) hc
        · simpa using hb
      rw [List.cons_append, splitlinesAux_cons_nobreak _ _ _ hcb,
        ih _ (fun e he hb => h e (by simp [he]) hb)]
      simp

theorem head?_reverse_cons_ne (c : Char) (d : List Char) (h : d ≠ []) :
    (c :: d).reverse.head? = d.reverse.head? := by
  rw [List.reverse_cons, head?_append_left]
  intro hh
  exact h (by simpa using hh)

theorem joinNL_splitlinesAux_noTrail (d acc : List Char)
    (h1 : ∀ c ∈ d, isLineBreakChar c = true → c = '\n')
    (h2 : ∀ c, d.reverse.head? = some c → c ≠ '\n') :
    joinNL (splitlinesAux d acc) = acc.reverse ++ d := by
  induction d generalizing acc with
  | nil =>
    rw [splitlinesAux.eq_1]
    cases acc with
    | nil => simp [joinNL]
    | cons a acc' => simp [joinNL]
  | cons c d' ih =>
    by_cases hc : c = '\n'
    · subst hc
      have hd' : d' ≠ [] := by
        intro hh
        subst hh
        exact h2 '\n' (by simp) rfl
      rw [splitlinesAux_cons_nl]
      have hne := splitlinesAux_ne_nil d' [] (Or.inl hd')
      rw [joinNL_cons_ne _ _ hne,
        ih [] (fun e he hb => h1 e (by simp [he]) hb)
          (fun e he => h2 e ((head?_reverse_cons_ne '\n' d' hd').symm ▸ he))]
      simp
    · have hcb : isLineBreakChar c = false := by
        by_cases hb : isLineBreakChar c
        · exact absurd (h1 c (by simp) hb) hc
        · simpa using hb
      rw [splitlinesAux_cons_nobreak _ _ _ hcb]
      cases hd' : d' with
      | nil =>
        subst hd'
        rw [splitlinesAux.eq_1]
        simp [joinNL]
      | cons e d'' =>
        rw [← hd',
          ih _ (fun e he hb => h1 e (by simp [he]) hb)
            (fun e he => h2 e ((head?_reverse_cons_ne c d' (by simp [hd'])).symm ▸ he))]
        simp


/-! ### Structural lemmas about fillOveralls and postprocess -/

theorem getOrNull_not_null (fields : List (List Char × JVal)) (key : List Char)
    (h : (getOrNull fields key).isNull = false) :
    getKey fields key = some (getOrNull fields key) := by
  cases hk : getKey fields key with
  | none =>
    rw [getOrNull, getD, hk] at h
    simp [JVal.isNull] at h
  | some sv => rw [getOrNull, getD, hk]; rfl

theorem getOrNull_of_getKey (fields : List (List Char × JVal)) (key : List Char) (v : JVal)
    (h : getKey fields key = some v) : getOrNull fields key = v := by
  rw [getOrNull, getD, h]
  rfl

theorem kOverallScore_ne_kOverallMax : kOverallScore ≠ kOverallMax := by decide

theorem kPercent_ne_kOverallScore : kPercent ≠ kOverallScore := by decide

theorem kPercent_ne_kOverallMax : kPercent ≠ kOverallMax := by decide

theorem kPercent_ne_kLetterGrade : kPercent ≠ kLetterGrade := by decide

theorem kLetterGrade_ne_kOverallScore : kLetterGrade ≠ kOverallScore := by decide

theorem kLetterGrade_ne_kOverallMax : kLetterGrade ≠ kOverallMax := by decide

theorem ratFloor_eq_floor (q : ℚ) : ratFloor q = ⌊q⌋ := Rat.floor_def.symm

theorem roundHalfEven_intCast (z : ℤ) : roundHalfEven ((z : ℚ)) = z := by
  rw [roundHalfEven, ratFloor_eq_floor]
  norm_num

theorem pyRound1_of_mul_int (q : ℚ) (z : ℤ) (h : q * 10 = (z : ℚ)) :
    pyRound1 q = (z : ℚ) / 10 := by
  rw [pyRound1, h, roundHalfEven_intCast]

theorem pyRound1_zero : pyRound1 0 = 0 := by
  rw [pyRound1_of_mul_int 0 0 (by norm_num)]
  norm_num

theorem fillOveralls_getKey (fields fields1 : List (List Char × JVal))
    (h : fillOveralls fields = .ok fields1) :
    ∃ sv mv, getKey fields1 kOverallScore = some sv ∧ getKey fields1 kOverallMax = some mv ∧
      sv.isNull = false ∧ mv.isNull = false := by
  unfold fillOveralls at h
  by_cases hcond :
      ((getOrNull fields kOverallScore).isNull || (getOrNull fields kOverallMax).isNull) = true
  · rw [if_pos hcond] at h
    cases hit : pyIterate (getD fields kRubricBreakdown (JVal.arr [])) with
    | error e =>
      rw [hit] at h
      exact absurd h (by simp)
    | ok items =>
      simp only [hit, Except.ok.injEq] at h
      subst h
      refine ⟨(if (getOrNull fields kOverallScore).isNull then JVal.num (sumContribs items).1
               else getOrNull fields kOverallScore),
              (if (getOrNull fields kOverallMax).isNull then JVal.num (sumContribs items).2
               else getOrNull fields kOverallMax), ?_, ?_, ?_, ?_⟩
      · rw [getKey_setKey_ne _ _ _ _ kOverallScore_ne_kOverallMax, getKey_setKey_self]
      · rw [getKey_setKey_self]
      · by_cases hn : (getOrNull fields kOverallScore).isNull = true
        · rw [if_pos hn]; rfl
        · rw [if_neg hn]; simpa using hn
      · by_cases hn : (getOrNull fields kOverallMax).isNull = true
        · rw [if_pos hn]; rfl
        · rw [if_neg hn]; simpa using hn
  · rw [if_neg hcond] at h
    simp only [Except.ok.injEq] at h
    have hb1 : (getOrNull fields kOverallScore).isNull = false := by
      cases hx : (getOrNull fields kOverallScore).isNull
      · rfl
      · exact absurd (by simp [hx]) hcond
    have hb2 : (getOrNull fields kOverallMax).isNull = false := by
      cases hx : (getOrNull fields kOverallMax).isNull
      · rfl
      · exact absurd (by simp [hx]) hcond
    exact ⟨_, _, h ▸ getOrNull_not_null fields kOverallScore hb1,
      h ▸ getOrNull_not_null fields kOverallMax hb2, hb1, hb2⟩

theorem fillOveralls_preserves (fields fields1 : List (List Char × JVal)) (key : List Char)
    (h : fillOveralls fields = .ok fields1)
    (h1 : key ≠ kOverallScore) (h2 : key ≠ kOverallMax) :
    getKey fields1 key = getKey fields key := by
  unfold fillOveralls at h
  by_cases hcond :
      ((getOrNull fields kOverallScore).isNull || (getOrNull fields kOverallMax).isNull) = true
  · rw [if_pos hcond] at h
    cases hit : pyIterate (getD fields kRubricBreakdown (JVal.arr [])) with
    | error e =>
      rw [hit] at h
      exact absurd h (by simp)
    | ok items =>
      simp only [hit, Except.ok.injEq] at h
      subst h
      rw [getKey_setKey_ne _ _ _ _ h2, getKey_setKey_ne _ _ _ _ h1]
  · rw [if_neg hcond] at h
    simp only [Except.ok.injEq] at h
    rw [h]

theorem pctFromFields_claim (fields : List (List Char × JVal)) (sv mv : JVal)
    (hs : getKey fields kOverallScore = some sv)
    (hm : getKey fields kOverallMax = some mv) :
    pyRound1 (pctFromFields fields) = claimPercent sv mv := by
  rw [pctFromFields, claimPercent, getOrNull_of_getKey _ _ _ hm, getOrNull_of_getKey _ _ _ hs]
  cases hmv : pyFloat mv with
  | error e => simpa using pyRound1_zero
  | ok m =>
    by_cases hpos : 0 < m
    · simp only [if_pos hpos]
      cases hsv : pyFloat sv with
      | error e => simpa using pyRound1_zero
      | ok s =>
        have harith : s / m * 100 = 100 * s / m := by ring
        simp [harith]
    · simp only [if_neg hpos]
      simpa using pyRound1_zero

theorem getKey_letterBranch (fields1 : List (List Char × JVal)) (X : JVal) (key : List Char)
    (hk : key ≠ kLetterGrade) :
    getKey (if pyTruthy (getOrNull fields1 kLetterGrade) then fields1
            else setKey fields1 kLetterGrade X) key = getKey fields1 key := by
  split
  · rfl
  · rw [getKey_setKey_ne _ _ _ _ hk]

/-- C2: every result `_postprocess` returns is an object whose `percent`
field equals `round(100 * overall_score / overall_max, 1)` whenever
`overall_max` converts to a positive number, and exactly `0.0` otherwise —
in particular `0.0` whenever `overall_score` or `overall_max` fails numeric
conversion, without an exception. -/
theorem C2_percent_invariant (res r : JVal) (h : postprocess res = .ok r) :
    ∃ fsOut sv mv, r = JVal.obj fsOut ∧
      getKey fsOut kOverallScore = some sv ∧
      getKey fsOut kOverallMax = some mv ∧
      getKey fsOut kPercent = some (JVal.num (claimPercent sv mv)) := by
  cases res with
  | null => simp [postprocess] at h
  | bool b => simp [postprocess] at h
  | num q => simp [postprocess] at h
  | str s => simp [postprocess] at h
  | arr l => simp [postprocess] at h
  | obj fields =>
    simp only [postprocess] at h
    cases hf : fillOveralls fields with
    | error e =>
      rw [hf] at h
      exact absurd h (by simp)
    | ok fields1 =>
      simp only [hf, Except.ok.injEq] at h
      subst h
      obtain ⟨sv, mv, hsv, hmv, _, _⟩ := fillOveralls_getKey fields fields1 hf
      refine ⟨_, sv, mv, rfl, ?_, ?_, ?_⟩
      · rw [getKey_setKey_ne _ _ _ _ (Ne.symm kPercent_ne_kOverallScore),
          getKey_letterBranch _ _ _ (Ne.symm kLetterGrade_ne_kOverallScore), hsv]
      · rw [getKey_setKey_ne _ _ _ _ (Ne.symm kPercent_ne_kOverallMax),
          getKey_letterBranch _ _ _ (Ne.symm kLetterGrade_ne_kOverallMax), hmv]
      · rw [getKey_setKey_self, pctFromFields_claim fields1 sv mv hsv hmv]

/-- C9: a well-formed input object that already has numeric `overall_score`
and `overall_max` and a non-empty `letter_grade` string is passed through
unchanged except for the added computed `percent` field, and those three
fields keep their values. -/
theorem C9_frame_effect (fields : List (List Char × JVal)) (a b : ℚ) (s : List Char)
    (hs : getKey fields kOverallScore = some (JVal.num a))
    (hm : getKey fields kOverallMax = some (JVal.num b))
    (hl : getKey fields kLetterGrade = some (JVal.str s))
    (hne : s ≠ []) :
    postprocess (JVal.obj fields) =
      .ok (JVal.obj (setKey fields kPercent
        (JVal.num (pyRound1 (if 0 < b then a / b * 100 else 0))))) ∧
    getKey (setKey fields kPercent
        (JVal.num (pyRound1 (if 0 < b then a / b * 100 else 0)))) kOverallScore =
      some (JVal.num a) ∧
    getKey (setKey fields kPercent
        (JVal.num (pyRound1 (if 0 < b then a / b * 100 else 0)))) kOverallMax =
      some (JVal.num b) ∧
    getKey (setKey fields kPercent
        (JVal.num (pyRound1 (if 0 < b then a / b * 100 else 0)))) kLetterGrade =
      some (JVal.str s) := by
  have hfill : fillOveralls fields = .ok fields := by
    unfold fillOveralls
    rw [getOrNull_of_getKey _ _ _ hs, getOrNull_of_getKey _ _ _ hm]
    rfl
  have hpct : pctFromFields fields = if 0 < b then a / b * 100 else 0 := by
    rw [pctFromFields, getOrNull_of_getKey _ _ _ hm, getOrNull_of_getKey _ _ _ hs]
    rfl
  have htr : pyTruthy (getOrNull fields kLetterGrade) = true := by
    rw [getOrNull_of_getKey _ _ _ hl]
    cases s with
    | nil => exact absurd rfl hne
    | cons c s' => rfl
  refine ⟨?_, ?_, ?_, ?_⟩
  · simp only [postprocess, hfill, htr, if_true, hpct]
  · rw [getKey_setKey_ne _ _ _ _ (Ne.symm kPercent_ne_kOverallScore), hs]
  · rw [getKey_setKey_ne _ _ _ _ (Ne.symm kPercent_ne_kOverallMax), hm]
  · rw [getKey_setKey_ne _ _ _ _ (Ne.symm kPercent_ne_kLetterGrade), hl]

theorem getKey_nil (key : List Char) : getKey [] key = none := rfl

theorem getKey_cons_self (k : List Char) (v : JVal) (rest : List (List Char × JVal)) :
    getKey ((k, v) :: rest) k = some v := by
  rw [getKey, if_pos rfl]

theorem getKey_cons_of_ne (k : List Char) (v : JVal) (rest : List (List Char × JVal))
    (key : List Char) (h : ¬ (k = key)) : getKey ((k, v) :: rest) key = getKey rest key := by
  rw [getKey, if_neg h]

theorem setKey_nil (key : List Char) (w : JVal) : setKey [] key w = [(key, w)] := rfl

theorem setKey_cons_self (k : List Char) (v : JVal) (rest : List (List Char × JVal)) (w : JVal) :
    setKey ((k, v) :: rest) k w = (k, w) :: rest := by
  rw [setKey, if_pos rfl]

theorem setKey_cons_of_ne (k : List Char) (v : JVal) (rest : List (List Char × JVal))
    (key : List Char) (w : JVal) (h : ¬ (k = key)) :
    setKey ((k, v) :: rest) key w = (k, v) :: setKey rest key w := by
  rw [setKey, if_neg h]

theorem fillOveralls_of_null (fields : List (List Char × JVal)) (items : List JVal)
    (hnull : (getOrNull fields kOverallScore).isNull = true ∨
      (getOrNull fields kOverallMax).isNull = true)
    (hRB : getD fields kRubricBreakdown (JVal.arr []) = JVal.arr items) :
    fillOveralls fields = .ok (setKey
      (setKey fields kOverallScore
        (if (getOrNull fields kOverallScore).isNull then JVal.num (sumContribs items).1
         else getOrNull fields kOverallScore))
      kOverallMax
      (if (getOrNull fields kOverallMax).isNull then JVal.num (sumContribs items).2
       else getOrNull fields kOverallMax)) := by
  rw [fillOveralls, hRB, if_pos (by simpa using hnull)]
  rfl

theorem postprocess_obj (fields fields1 : List (List Char × JVal))
    (hf : fillOveralls fields = .ok fields1) :
    postprocess (JVal.obj fields) = .ok (JVal.obj (setKey
      (if pyTruthy (getOrNull fields1 kLetterGrade) then fields1
       else setKey fields1 kLetterGrade
         (JVal.str (default_letter_grade (pctFromFields fields1))))
      kPercent (JVal.num (pyRound1 (pctFromFields fields1))))) := by
  simp only [postprocess, hf]

/-- C3 counterexample: in the object `exC3fields` the field `overall_score`
is absent while `overall_max` is present as 50; the rubric sums are
`(5, 10)`, yet normalization leaves `overall_max` at 50 instead of the
claimed sum 10 of the item max scores. -/
theorem C3_counterexample :
    getOrNull exC3fields kOverallScore = JVal.null ∧
    getD exC3fields kRubricBreakdown (JVal.arr []) = JVal.arr [exItemA] ∧
    (sumContribs [exItemA]).2 = 10 ∧
    (∃ fsOut, postprocess (JVal.obj exC3fields) = .ok (JVal.obj fsOut) ∧
      getKey fsOut kOverallMax = some (JVal.num 50)) ∧
    (50 : ℚ) ≠ 10 := by
  have hsum : (sumContribs [exItemA]).2 = 10 := by
    have h1 : sumContribs [exItemA] = ((0 : ℚ) + 5, (0 : ℚ) + 10) := rfl
    rw [h1]
    norm_num
  refine ⟨rfl, rfl, hsum, ?_, by norm_num⟩
  have hfill := fillOveralls_of_null exC3fields [exItemA] (Or.inl rfl) rfl
  refine ⟨_, postprocess_obj _ _ hfill, ?_⟩
  rw [getKey_setKey_ne _ _ _ _ (Ne.symm kPercent_ne_kOverallMax),
    getKey_letterBranch _ _ _ (Ne.symm kLetterGrade_ne_kOverallMax),
    getKey_setKey_self]
  rfl

/-- C3 (amended): when `overall_score` or `overall_max` is absent (or null)
in a parsed object whose `rubric_breakdown` is a list, `_postprocess` sums
`score` (default 0) and `max_score` (default 10) over the entries and
assigns each total only to the field that was absent, leaving a present
field unchanged; with both fields absent, `overall_score` becomes the score
total and `overall_max` the max total. -/
theorem C3_amended_fill (fields : List (List Char × JVal)) (items : List JVal)
    (hnull : (getOrNull fields kOverallScore).isNull = true ∨
      (getOrNull fields kOverallMax).isNull = true)
    (hRB : getD fields kRubricBreakdown (JVal.arr []) = JVal.arr items) :
    ∃ fsOut, postprocess (JVal.obj fields) = .ok (JVal.obj fsOut) ∧
      getKey fsOut kOverallScore = some
        (if (getOrNull fields kOverallScore).isNull then JVal.num (sumContribs items).1
         else getOrNull fields kOverallScore) ∧
      getKey fsOut kOverallMax = some
        (if (getOrNull fields kOverallMax).isNull then JVal.num (sumContribs items).2
         else getOrNull fields kOverallMax) := by
  have hfill := fillOveralls_of_null fields items hnull hRB
  refine ⟨_, postprocess_obj _ _ hfill, ?_, ?_⟩
  · rw [getKey_setKey_ne _ _ _ _ (Ne.symm kPercent_ne_kOverallScore),
      getKey_letterBranch _ _ _ (Ne.symm kLetterGrade_ne_kOverallScore),
      getKey_setKey_ne _ _ _ _ kOverallScore_ne_kOverallMax, getKey_setKey_self]
  · rw [getKey_setKey_ne _ _ _ _ (Ne.symm kPercent_ne_kOverallMax),
      getKey_letterBranch _ _ _ (Ne.symm kLetterGrade_ne_kOverallMax),
      getKey_setKey_self]

/-- C3 witness: the amended fill statement applied to the concrete object
`exC3fields` (score field absent, max field 50). -/
theorem C3_amended_fill_witness :
    ∃ fsOut, postprocess (JVal.obj exC3fields) = .ok (JVal.obj fsOut) ∧
      getKey fsOut kOverallScore = some
        (if (getOrNull exC3fields kOverallScore).isNull then JVal.num (sumContribs [exItemA]).1
         else getOrNull exC3fields kOverallScore) ∧
      getKey fsOut kOverallMax = some
        (if (getOrNull exC3fields kOverallMax).isNull then JVal.num (sumContribs [exItemA]).2
         else getOrNull exC3fields kOverallMax) :=
  C3_amended_fill exC3fields [exItemA] (Or.inl rfl) rfl

/-- C6 counterexample: the entry `exItemB` has `score = 5` and a
`max_score` that fails conversion; the loop adds its score 5 to the score
total (not zero), so the entry does not contribute zero to both totals. -/
theorem C6_counterexample :
    pyFloat (getD [(kScore, JVal.num 5), (kMaxScore, JVal.str (("abc").data))]
      kMaxScore (JVal.num 10)) = .error .valueError ∧
    itemContrib exItemB = (5, 0) ∧
    (∃ fsOut, postprocess (JVal.obj exC6fields) = .ok (JVal.obj fsOut) ∧
      getKey fsOut kOverallScore = some (JVal.num ((sumContribs [exItemB]).1))) ∧
    (sumContribs [exItemB]).1 = 5 ∧
    (5 : ℚ) ≠ 0 := by
  have hsum : (sumContribs [exItemB]).1 = 5 := by
    have h1 : sumContribs [exItemB] = ((0 : ℚ) + 5, (0 : ℚ) + 0) := rfl
    rw [h1]
    norm_num
  refine ⟨rfl, rfl, ?_, hsum, by norm_num⟩
  have hfill := fillOveralls_of_null exC6fields [exItemB] (Or.inl rfl) rfl
  refine ⟨_, postprocess_obj _ _ hfill, ?_⟩
  rw [getKey_setKey_ne _ _ _ _ (Ne.symm kPercent_ne_kOverallScore),
    getKey_letterBranch _ _ _ (Ne.symm kLetterGrade_ne_kOverallScore),
    getKey_setKey_ne _ _ _ _ kOverallScore_ne_kOverallMax, getKey_setKey_self]
  rfl

/-- C6 (amended): inside the summation loop a dict entry contributes its
converted score and max; a score conversion failure skips both additions
(zero to both totals), while a max conversion failure after a successful
score conversion contributes the score and zero to the max total; and
whenever `rubric_breakdown` is a list, normalization of an object never
raises. -/
theorem C6_amended_contributions :
    (∀ ifields : List (List Char × JVal),
      itemContrib (JVal.obj ifields) =
        (exceptD (pyFloat (getD ifields kScore (JVal.num 0))) 0,
         if isOkB (pyFloat (getD ifields kScore (JVal.num 0)))
         then exceptD (pyFloat (getD ifields kMaxScore (JVal.num 10))) 0 else 0)) ∧
    (∀ (fields : List (List Char × JVal)) (items : List JVal),
      getD fields kRubricBreakdown (JVal.arr []) = JVal.arr items →
      ∃ r, postprocess (JVal.obj fields) = .ok r) := by
  constructor
  · intro ifields
    rw [itemContrib]
    cases h1 : pyFloat (getD ifields kScore (JVal.num 0)) with
    | error e => simp [h1, exceptD, isOkB]
    | ok s =>
      cases h2 : pyFloat (getD ifields kMaxScore (JVal.num 10)) with
      | error e => simp [h1, h2, exceptD, isOkB]
      | ok m => simp [h1, h2, exceptD, isOkB]
  · intro fields items hRB
    by_cases hnull : (getOrNull fields kOverallScore).isNull = true ∨
        (getOrNull fields kOverallMax).isNull = true
    · exact ⟨_, postprocess_obj _ _ (fillOveralls_of_null fields items hnull hRB)⟩
    · have hfill : fillOveralls fields = .ok fields := by
        rw [fillOveralls, if_neg (by simpa using hnull)]
      exact ⟨_, postprocess_obj _ _ hfill⟩

/-- C6 witness: the contribution statement applied to `exItemB` and the
no-abort statement applied to `exC6fields`. -/
theorem C6_amended_contributions_witness :
    itemContrib (JVal.obj [(kScore, JVal.num 5), (kMaxScore, JVal.str (("abc").data))]) =
      (exceptD (pyFloat (getD [(kScore, JVal.num 5), (kMaxScore, JVal.str (("abc").data))]
        kScore (JVal.num 0))) 0,
       if isOkB (pyFloat (getD [(kScore, JVal.num 5), (kMaxScore, JVal.str (("abc").data))]
         kScore (JVal.num 0)))
       then exceptD (pyFloat (getD [(kScore, JVal.num 5), (kMaxScore, JVal.str (("abc").data))]
         kMaxScore (JVal.num 10))) 0 else 0) ∧
    (∃ r, postprocess (JVal.obj exC6fields) = .ok r) :=
  ⟨C6_amended_contributions.1 [(kScore, JVal.num 5), (kMaxScore, JVal.str (("abc").data))],
   C6_amended_contributions.2 exC6fields [exItemB] rfl⟩

/-- C4: when the parsed object's `letter_grade` is absent or the empty
string, `_postprocess` stores the letter derived from the computed
percentage via the fixed top-down threshold table; the table maps each
percentage band to its grade, in particular 97.0 to A+, 96.9 to A,
60.0 to D-, and 59.9 to F. -/
theorem C4_letter_derivation :
    (∀ fields fields1 : List (List Char × JVal), fillOveralls fields = .ok fields1 →
      (getKey fields kLetterGrade = none ∨ getKey fields kLetterGrade = some (JVal.str [])) →
      ∃ fsOut, postprocess (JVal.obj fields) = .ok (JVal.obj fsOut) ∧
        getKey fsOut kLetterGrade =
          some (JVal.str (default_letter_grade (pctFromFields fields1)))) ∧
    (∀ p : ℚ, 97 ≤ p → default_letter_grade p = ("A+").data) ∧
    (∀ p : ℚ, 93 ≤ p → p < 97 → default_letter_grade p = ("A").data) ∧
    (∀ p : ℚ, 90 ≤ p → p < 93 → default_letter_grade p = ("A-").data) ∧
    (∀ p : ℚ, 87 ≤ p → p < 90 → default_letter_grade p = ("B+").data) ∧
    (∀ p : ℚ, 83 ≤ p → p < 87 → default_letter_grade p = ("B").data) ∧
    (∀ p : ℚ, 80 ≤ p → p < 83 → default_letter_grade p = ("B-").data) ∧
    (∀ p : ℚ, 77 ≤ p → p < 80 → default_letter_grade p = ("C+").data) ∧
    (∀ p : ℚ, 73 ≤ p → p < 77 → default_letter_grade p = ("C").data) ∧
    (∀ p : ℚ, 70 ≤ p → p < 73 → default_letter_grade p = ("C-").data) ∧
    (∀ p : ℚ, 67 ≤ p → p < 70 → default_letter_grade p = ("D+").data) ∧
    (∀ p : ℚ, 63 ≤ p → p < 67 → default_letter_grade p = ("D").data) ∧
    (∀ p : ℚ, 60 ≤ p → p < 63 → default_letter_grade p = ("D-").data) ∧
    (∀ p : ℚ, p < 60 → default_letter_grade p = ("F").data) ∧
    default_letter_grade 97 = ("A+").data ∧
    default_letter_grade (969/10) = ("A").data ∧
    default_letter_grade 60 = ("D-").data ∧
    default_letter_grade (599/10) = ("F").data := by
  refine ⟨?_, ?_, ?_, ?_, ?_, ?_, ?_, ?_, ?_, ?_, ?_, ?_, ?_, ?_, ?_, ?_, ?_, ?_⟩
  · intro fields fields1 hf hl
    have hpres : getKey fields1 kLetterGrade = getKey fields kLetterGrade :=
      fillOveralls_preserves fields fields1 kLetterGrade hf
        kLetterGrade_ne_kOverallScore kLetterGrade_ne_kOverallMax
    have hlb : pyTruthy (getOrNull fields1 kLetterGrade) = false := by
      rcases hl with hl | hl <;> rw [getOrNull, getD, hpres, hl] <;> rfl
    refine ⟨_, postprocess_obj _ _ hf, ?_⟩
    rw [getKey_setKey_ne _ _ _ _ (Ne.symm kPercent_ne_kLetterGrade)]
    rw [show (if pyTruthy (getOrNull fields1 kLetterGrade) then fields1
        else setKey fields1 kLetterGrade
          (JVal.str (default_letter_grade (pctFromFields fields1)))) =
        setKey fields1 kLetterGrade
          (JVal.str (default_letter_grade (pctFromFields fields1))) from by rw [hlb]; simp]
    rw [getKey_setKey_self]
  · intro p hp
    rw [default_letter_grade, if_pos hp]
  · intro p h1 h2
    rw [default_letter_grade, if_neg (by linarith), if_pos h1]
  · intro p h1 h2
    rw [default_letter_grade, if_neg (by linarith), if_neg (by linarith), if_pos h1]
  · intro p h1 h2
    rw [default_letter_grade, if_neg (by linarith), if_neg (by linarith),
      if_neg (by linarith), if_pos h1]
  · intro p h1 h2
    rw [default_letter_grade, if_neg (by linarith), if_neg (by linarith),
      if_neg (by linarith), if_neg (by linarith), if_pos h1]
  · intro p h1 h2
    rw [default_letter_grade, if_neg (by linarith), if_neg (by linarith),
      if_neg (by linarith), if_neg (by linarith), if_neg (by linarith), if_pos h1]
  · intro p h1 h2
    rw [default_letter_grade, if_neg (by linarith), if_neg (by linarith),
      if_neg (by linarith), if_neg (by linarith), if_neg (by linarith),
      if_neg (by linarith), if_pos h1]
  · intro p h1 h2
    rw [default_letter_grade, if_neg (by linarith), if_neg (by linarith),
      if_neg (by linarith), if_neg (by linarith), if_neg (by linarith),
      if_neg (by linarith), if_neg (by linarith), if_pos h1]
  · intro p h1 h2
    rw [default_letter_grade, if_neg (by linarith), if_neg (by linarith),
      if_neg (by linarith), if_neg (by linarith), if_neg (by linarith),
      if_neg (by linarith), if_neg (by linarith), if_neg (by linarith), if_pos h1]
  · intro p h1 h2
    rw [default_letter_grade, if_neg (by linarith), if_neg (by linarith),
      if_neg (by linarith), if_neg (by linarith), if_neg (by linarith),
      if_neg (by linarith), if_neg (by linarith), if_neg (by linarith),
      if_neg (by linarith), if_pos h1]
  · intro p h1 h2
    rw [default_letter_grade, if_neg (by linarith), if_neg (by linarith),
      if_neg (by linarith), if_neg (by linarith), if_neg (by linarith),
      if_neg (by linarith), if_neg (by linarith), if_neg (by linarith),
      if_neg (by linarith), if_neg (by linarith), if_pos h1]
  · intro p h1 h2
    rw [default_letter_grade, if_neg (by linarith), if_neg (by linarith),
      if_neg (by linarith), if_neg (by linarith), if_neg (by linarith),
      if_neg (by linarith), if_neg (by linarith), if_neg (by linarith),
      if_neg (by linarith), if_neg (by linarith), if_neg (by linarith), if_pos h1]
  · intro p h1
    rw [default_letter_grade, if_neg (by linarith), if_neg (by linarith),
      if_neg (by linarith), if_neg (by linarith), if_neg (by linarith),
      if_neg (by linarith), if_neg (by linarith), if_neg (by linarith),
      if_neg (by linarith), if_neg (by linarith), if_neg (by linarith),
      if_neg (by linarith)]
  · rw [default_letter_grade, if_pos (by norm_num)]
  · rw [default_letter_grade, if_neg (by norm_num), if_pos (by norm_num)]
  · rw [default_letter_grade, if_neg (by norm_num), if_neg (by norm_num),
      if_neg (by norm_num), if_neg (by norm_num), if_neg (by norm_num),
      if_neg (by norm_num), if_neg (by norm_num), if_neg (by norm_num),
      if_neg (by norm_num), if_neg (by norm_num), if_neg (by norm_num),
      if_pos (by norm_num)]
  · rw [default_letter_grade, if_neg (by norm_num), if_neg (by norm_num),
      if_neg (by norm_num), if_neg (by norm_num), if_neg (by norm_num),
      if_neg (by norm_num), if_neg (by norm_num), if_neg (by norm_num),
      if_neg (by norm_num), if_neg (by norm_num), if_neg (by norm_num),
      if_neg (by norm_num)]

/-- C4 witness: letter derivation applied to `exC4fields` (overall 15/20,
no letter grade), plus a table instance at 100. -/
theorem C4_letter_derivation_witness :
    (∃ fsOut, postprocess (JVal.obj exC4fields) = .ok (JVal.obj fsOut) ∧
      getKey fsOut kLetterGrade =
        some (JVal.str (default_letter_grade (pctFromFields exC4fields)))) ∧
    default_letter_grade 100 = ("A+").data :=
  ⟨C4_letter_derivation.1 exC4fields exC4fields rfl (Or.inl rfl),
   C4_letter_derivation.2.1 100 (by norm_num)⟩

/-- C1 (code evaluated at the failing input): the raw model text `"5"` is
valid JSON, so extraction succeeds with a non-dict value, and
`_postprocess` then raises `AttributeError` on `.get` — the normalizer
boundary is not total. -/
theorem C1_nondict_raises :
    grade_work_normalize (("5").data) = .error .attributeError := rfl

/-- C5: whenever extraction fails, the normalizer returns the fallback
object — the two advisory strings, empty list fields, zero scores, letter
grade `N/A`, `final_comment` equal to the stripped raw text — with
`percent = 0.0` appended, and does not raise. -/
theorem C5_fallback (raw : List Char) (h : safe_json_parse raw = none) :
    grade_work_normalize raw = .ok (JVal.obj (setKey (fallbackFields raw) kPercent (JVal.num 0))) ∧
    getKey (setKey (fallbackFields raw) kPercent (JVal.num 0)) kAssumptions =
      some (JVal.arr [JVal.str advisory1, JVal.str advisory2]) ∧
    getKey (setKey (fallbackFields raw) kPercent (JVal.num 0)) kRubricBreakdown =
      some (JVal.arr []) ∧
    getKey (setKey (fallbackFields raw) kPercent (JVal.num 0)) kOverallScore =
      some (JVal.num 0) ∧
    getKey (setKey (fallbackFields raw) kPercent (JVal.num 0)) kOverallMax =
      some (JVal.num 0) ∧
    getKey (setKey (fallbackFields raw) kPercent (JVal.num 0)) kLetterGrade =
      some (JVal.str (("N/A").data)) ∧
    getKey (setKey (fallbackFields raw) kPercent (JVal.num 0)) kStrengths =
      some (JVal.arr []) ∧
    getKey (setKey (fallbackFields raw) kPercent (JVal.num 0)) kTopFixes =
      some (JVal.arr []) ∧
    getKey (setKey (fallbackFields raw) kPercent (JVal.num 0)) kRewriteSuggestions =
      some (JVal.arr []) ∧
    getKey (setKey (fallbackFields raw) kPercent (JVal.num 0)) kFinalComment =
      some (JVal.str (pyStrip raw)) ∧
    getKey (setKey (fallbackFields raw) kPercent (JVal.num 0)) kPercent =
      some (JVal.num 0) := by
  have hmain : grade_work_normalize raw =
      .ok (JVal.obj (setKey (fallbackFields raw) kPercent (JVal.num 0))) := by
    rw [grade_work_normalize, h]
    have hfill : fillOveralls (fallbackFields raw) = .ok (fallbackFields raw) := rfl
    rw [postprocess_obj _ _ hfill]
    have hpct : pctFromFields (fallbackFields raw) = 0 := by
      rw [pctFromFields,
        show getOrNull (fallbackFields raw) kOverallMax = JVal.num 0 from rfl]
      rw [show pyFloat (JVal.num 0) = .ok 0 from rfl]
      simp only [if_neg (by norm_num : ¬ ((0 : ℚ) < 0))]
    rw [hpct, pyRound1_zero,
      show pyTruthy (getOrNull (fallbackFields raw) kLetterGrade) = true from rfl]
    simp only [if_true]
  refine ⟨hmain, ?_, ?_, ?_, ?_, ?_, ?_, ?_, ?_, ?_, ?_⟩ <;> rfl

/-- C5 witness: the fallback conclusion at the unparseable raw text
`"hello"`. -/
theorem C5_fallback_witness :
    grade_work_normalize (("hello").data) =
      .ok (JVal.obj (setKey (fallbackFields (("hello").data)) kPercent (JVal.num 0))) ∧
    getKey (setKey (fallbackFields (("hello").data)) kPercent (JVal.num 0)) kFinalComment =
      some (JVal.str (pyStrip (("hello").data))) :=
  ⟨(C5_fallback (("hello").data) rfl).1, (C5_fallback (("hello").data) rfl).2.2.2.2.2.2.2.2.2.1⟩

/-- C2 witness: the percent invariant at a concrete normalized result
(overall 15 out of 20, letter grade B). -/
theorem C2_percent_invariant_witness :
    ∃ fsOut sv mv, JVal.obj (setKey exC2fields kPercent (JVal.num (pyRound1
        (pctFromFields exC2fields)))) = JVal.obj fsOut ∧
      getKey fsOut kOverallScore = some sv ∧
      getKey fsOut kOverallMax = some mv ∧
      getKey fsOut kPercent = some (JVal.num (claimPercent sv mv)) := by
  refine C2_percent_invariant (JVal.obj exC2fields) _ ?_
  rw [postprocess_obj exC2fields exC2fields rfl,
    show pyTruthy (getOrNull exC2fields kLetterGrade) = true from rfl]
  simp only [if_true]

/-- C9 witness: the frame property at the object with overall 15/20 and
letter grade B. -/
theorem C9_frame_effect_witness :
    postprocess (JVal.obj exC2fields) =
      .ok (JVal.obj (setKey exC2fields kPercent
        (JVal.num (pyRound1 (if 0 < (20 : ℚ) then (15 : ℚ) / 20 * 100 else 0))))) ∧
    getKey (setKey exC2fields kPercent
        (JVal.num (pyRound1 (if 0 < (20 : ℚ) then (15 : ℚ) / 20 * 100 else 0)))) kOverallScore =
      some (JVal.num 15) ∧
    getKey (setKey exC2fields kPercent
        (JVal.num (pyRound1 (if 0 < (20 : ℚ) then (15 : ℚ) / 20 * 100 else 0)))) kOverallMax =
      some (JVal.num 20) ∧
    getKey (setKey exC2fields kPercent
        (JVal.num (pyRound1 (if 0 < (20 : ℚ) then (15 : ℚ) / 20 * 100 else 0)))) kLetterGrade =
      some (JVal.str (("B").data)) :=
  C9_frame_effect exC2fields 15 20 (("B").data) rfl rfl rfl (by decide)

/-- C7 counterexample: the input `"easy "` (trailing space) is not
case-insensitively equal to `"easy"` or `"hard"`, yet the switch selects
the easy fragment rather than the balanced one, because the code strips
whitespace as well as lowercasing. -/
theorem C7_counterexample :
    strictness_instructions (some (("easy ").data)) = easyText ∧
    pyLower (("easy ").data) ≠ ("easy").data ∧
    pyLower (("easy ").data) ≠ ("hard").data ∧
    easyText ≠ balancedText := by
  refine ⟨rfl, by decide, by decide, by decide⟩

/-- C7 (amended): the strictness switch is total — every input, the absent
value and the empty string included, selects exactly one of the three
fragments: the easy fragment exactly when the input equals `easy` after
lowercasing and stripping surrounding whitespace (with `medium`
substituted for an absent or empty input), the strict fragment exactly for
`hard`, and the balanced fragment in every other case. -/
theorem C7_strictness_switch (level : Option (List Char)) :
    (strictness_instructions level = easyText ∨ strictness_instructions level = hardText ∨
     strictness_instructions level = balancedText) ∧
    (strictness_instructions level = easyText ↔
      pyStrip (pyLower (pyOrDefault level (("medium").data))) = ("easy").data) ∧
    (strictness_instructions level = hardText ↔
      pyStrip (pyLower (pyOrDefault level (("medium").data))) = ("hard").data) ∧
    (strictness_instructions level = balancedText ↔
      (pyStrip (pyLower (pyOrDefault level (("medium").data))) ≠ ("easy").data ∧
       pyStrip (pyLower (pyOrDefault level (("medium").data))) ≠ ("hard").data)) := by
  by_cases h1 : pyStrip (pyLower (pyOrDefault level (("medium").data))) = ("easy").data
  · rw [strictness_instructions, if_pos h1]
    refine ⟨Or.inl rfl, ⟨fun _ => h1, fun _ => rfl⟩, ?_, ?_⟩
    · exact ⟨fun he => absurd he (by decide), fun hh => absurd (h1.symm.trans hh) (by decide)⟩
    · exact ⟨fun he => absurd he (by decide), fun hp => absurd h1 hp.1⟩
  · by_cases h2 : pyStrip (pyLower (pyOrDefault level (("medium").data))) = ("hard").data
    · rw [strictness_instructions, if_neg h1, if_pos h2]
      refine ⟨Or.inr (Or.inl rfl), ?_, ⟨fun _ => h2, fun _ => rfl⟩, ?_⟩
      · exact ⟨fun he => absurd he (by decide), fun hh => absurd hh h1⟩
      · exact ⟨fun he => absurd he (by decide), fun hp => absurd h2 hp.2⟩
    · rw [strictness_instructions, if_neg h1, if_neg h2]
      refine ⟨Or.inr (Or.inr rfl), ?_, ?_, ⟨fun _ => ⟨h1, h2⟩, fun _ => rfl⟩⟩
      · exact ⟨fun he => absurd he (by decide), fun hh => absurd hh h1⟩
      · exact ⟨fun he => absurd he (by decide), fun hh => absurd hh h2⟩

/-- C7 witness: the switch at the concrete input `"HARD "` selects the
strict fragment. -/
theorem C7_strictness_switch_witness :
    strictness_instructions (some (("HARD ").data)) = hardText :=
  (C7_strictness_switch (some (("HARD ").data))).2.2.1.mpr (by decide)

/-! ### Lemmas about the fenced-extraction path -/

theorem mem_stripTrailIf (p : Char → Bool) (l : List Char) (c : Char)
    (h : c ∈ stripTrailIf p l) : c ∈ l := by
  rw [stripTrailIf, List.mem_reverse] at h
  have := (List.dropWhile_sublist p).subset h
  simpa using this

theorem pyStrip_wrapFence (tag d : List Char) :
    pyStrip (wrapFence tag d) = wrapFence tag d := by
  have h1 : wrapFence tag d =
      (tick3 ++ tag ++ '\n' :: d ++ ['\n', tickChar, tickChar]) ++ [tickChar] := by
    simp [wrapFence, tick3]
  have h2 : wrapFence tag d =
      tickChar :: (tickChar :: tickChar :: (tag ++ '\n' :: d ++ '\n' :: tick3)) := by
    simp [wrapFence, tick3]
  rw [pyStrip, pyStripIf, h1, stripTrailIf_append_single _ _ _ (by decide), ← h1, h2,
    List.dropWhile_cons_of_neg (by decide)]

theorem take3_wrapFence (tag d : List Char) : (wrapFence tag d).take 3 = tick3 := by
  simp [wrapFence, tick3]

theorem stripTicks_wrapFence (c0 : Char) (tag' d : List Char) (hc0 : ¬ (c0 = tickChar)) :
    pyStripIf (fun ch => ch == tickChar) (wrapFence (c0 :: tag') d) =
      (c0 :: tag') ++ '\n' :: d ++ ['\n'] := by
  have hconc : stripTrailIf (fun ch => ch == tickChar) ('\n' :: tick3) = ['\n'] := rfl
  have h1 : wrapFence (c0 :: tag') d =
      (tick3 ++ (c0 :: tag') ++ '\n' :: d) ++ ('\n' :: tick3) := by
    simp [wrapFence]
  rw [pyStripIf, h1, stripTrailIf_append _ _ _ (by simp [hconc]), hconc]
  have h2 : (tick3 ++ (c0 :: tag') ++ '\n' :: d) ++ ['\n'] =
      tickChar :: tickChar :: tickChar :: (c0 :: (tag' ++ '\n' :: d ++ ['\n'])) := by
    simp [tick3]
  rw [h2, List.dropWhile_cons_of_pos (by simp), List.dropWhile_cons_of_pos (by simp),
    List.dropWhile_cons_of_pos (by simp), List.dropWhile_cons_of_neg (by simp [hc0])]
  simp

/-- C8 (amended): wrapping a JSON document `d` in a triple-backquote fence
with a case-insensitive `json` tag line preserves extraction — provided the
tag is a single line not starting with a backquote and `d` uses no line
boundary characters other than newline (Python `splitlines` also breaks on
`\r`, vertical tab, form feed, FS/GS/RS, NEL, U+2028, U+2029, which the
re-joining step would corrupt). -/
theorem C8_fenced_extraction (tag d : List Char) (v : JVal)
    (htag : pyStrip (pyLower tag) = ("json").data)
    (htagchars : ∀ c ∈ tag, isLineBreakChar c = false)
    (htagtick : tag.head? ≠ some tickChar)
    (hd : ∀ c ∈ d, isLineBreakChar c = true → c = '\n')
    (hparse : pyJsonLoads d = some v) :
    safe_json_parse (wrapFence tag d) = some v := by
  cases tag with
  | nil => exact absurd htag (by decide)
  | cons c0 tag' =>
    have hc0 : ¬ (c0 = tickChar) := by
      intro hh
      exact htagtick (by rw [hh]; rfl)
    have htm : tagMatch (c0 :: tag') = true := by
      simp [tagMatch, jsonTagWord, htag]
    rw [safe_json_parse, pyStrip_wrapFence, defenceText, if_pos (take3_wrapFence _ d),
      stripTicks_wrapFence c0 tag' d hc0, pySplitlines]
    rw [show c0 :: tag' ++ '\n' :: d ++ ['\n'] = (c0 :: tag') ++ '\n' :: (d ++ ['\n']) from by
      simp]
    rw [splitlinesAux_line _ _ _ (fun c hc => htagchars c hc)]
    simp only [List.reverse_nil, List.nil_append, htm, if_true]
    rw [joinNL_splitlinesAux_newline d [] hd]
    simp only [List.reverse_nil, List.nil_append]
    rw [pyJsonLoads_strip, hparse]

/-- C8 counterexample: the five-character JSON document `"a⨨b"` (a string
containing a raw U+2028 LINE SEPARATOR, which JSON allows unescaped)
parses on its own, but wrapped in a json-tagged fence the extraction fails:
`splitlines` breaks the string at U+2028 and the re-join replaces it with
a newline, which is an (invalid) control character inside a JSON string. -/
theorem C8_counterexample :
    pyJsonLoads ['"', 'a', '\u2028', 'b', '"'] = some (JVal.str ['a', '\u2028', 'b']) ∧
    safe_json_parse (wrapFence (("json").data) ['"', 'a', '\u2028', 'b', '"']) = none := by
  exact ⟨rfl, rfl⟩

/-- C8 witness: fenced extraction with an uppercase `JSON` tag around the
document `[1, 2]`. -/
theorem C8_fenced_extraction_witness :
    safe_json_parse (wrapFence (("JSON").data) (("[1, 2]").data)) =
      pyJsonLoads (("[1, 2]").data) ∧
    (pyJsonLoads (("[1, 2]").data)).isSome = true := by
  have hsome : (pyJsonLoads (("[1, 2]").data)).isSome = true := rfl
  obtain ⟨v, hv⟩ := Option.isSome_iff_exists.mp hsome
  refine ⟨?_, hsome⟩
  rw [hv]
  exact C8_fenced_extraction (("JSON").data) (("[1, 2]").data) v (by decide) (by decide)
    (by decide) (by decide) hv

/-- C10: because `strip("`")` removes every leading and trailing backquote
rather than one fence marker per side, an input that opens a json-tagged
fence but never closes it still extracts successfully whenever the
remainder after the tag line is a JSON document (using only newline line
breaks and not ending in a backquote). -/
theorem C10_unclosed_fence (d : List Char) (v : JVal)
    (hd : ∀ c ∈ d, isLineBreakChar c = true → c = '\n')
    (hlast : ∀ c, (stripTrailIf isPySpace d).reverse.head? = some c → ¬ (c = tickChar))
    (hparse : pyJsonLoads d = some v) :
    safe_json_parse (tick3 ++ ("json").data ++ '\n' :: d) = some v := by
  have hd'ne : stripTrailIf isPySpace d ≠ [] := by
    intro hnil
    have hstrip : pyStrip d = [] := by
      rw [pyStrip, pyStripIf, hnil]
      rfl
    rw [pyJsonLoads, hstrip] at hparse
    exact Option.noConfusion hparse
  -- the whitespace-stripped input keeps its concrete head
  have h1 : pyStrip (tick3 ++ ("json").data ++ '\n' :: d) =
      tick3 ++ ("json").data ++ '\n' :: stripTrailIf isPySpace d := by
    rw [pyStrip, pyStripIf,
      show tick3 ++ ("json").data ++ '\n' :: d =
        (tick3 ++ ("json").data ++ ['\n']) ++ d from by simp,
      stripTrailIf_append _ _ _ hd'ne,
      show (tick3 ++ ("json").data ++ ['\n']) ++ stripTrailIf isPySpace d =
        tickChar :: (tickChar :: tickChar :: (("json").data ++ '\n' :: stripTrailIf isPySpace d))
        from by simp [tick3],
      List.dropWhile_cons_of_neg (by decide)]
    simp [tick3]
  have htake : (tick3 ++ ("json").data ++ '\n' :: stripTrailIf isPySpace d).take 3 = tick3 := by
    simp [tick3]
  -- backquote stripping: nothing at the tail, exactly the fence at the head
  have h2 : pyStripIf (fun ch => ch == tickChar)
      (tick3 ++ ("json").data ++ '\n' :: stripTrailIf isPySpace d) =
      ("json").data ++ '\n' :: stripTrailIf isPySpace d := by
    rw [pyStripIf, stripTrailIf_eq_self_of_last _ _ ?hlast]
    case hlast =>
      intro c hc
      have hrev : (tick3 ++ ("json").data ++ '\n' :: stripTrailIf isPySpace d).reverse.head? =
          (stripTrailIf isPySpace d).reverse.head? := by
        rw [show tick3 ++ ("json").data ++ '\n' :: stripTrailIf isPySpace d =
          (tick3 ++ ("json").data ++ ['\n']) ++ stripTrailIf isPySpace d from by simp,
          List.reverse_append, head?_append_left]
        simpa using hd'ne
      rw [hrev] at hc
      simpa using hlast c hc
    rw [show tick3 ++ ("json").data ++ '\n' :: stripTrailIf isPySpace d =
      tickChar :: tickChar :: tickChar :: (("json").data ++ '\n' :: stripTrailIf isPySpace d)
      from by simp [tick3],
      List.dropWhile_cons_of_pos (by simp), List.dropWhile_cons_of_pos (by simp),
      List.dropWhile_cons_of_pos (by simp)]
    exact dropWhile_eq_self_of_head _ _ (fun c hc => by
      have h2 : some 'j' = some c := hc
      injection h2 with h3
      rw [← h3]
      decide)
  have hd'chars : ∀ c ∈ stripTrailIf isPySpace d, isLineBreakChar c = true → c = '\n' :=
    fun c hc => hd c (mem_stripTrailIf _ _ _ hc)
  have hd'last : ∀ c, (stripTrailIf isPySpace d).reverse.head? = some c → c ≠ '\n' := by
    intro c hc
    have := stripTrailIf_last isPySpace d c hc
    intro hnl
    rw [hnl] at this
    exact absurd this (by decide)
  have htm : tagMatch ['j', 's', 'o', 'n'] = true := rfl
  rw [safe_json_parse, h1, defenceText, if_pos htake, h2, pySplitlines,
    splitlinesAux_line _ _ _ (by decide)]
  simp only [List.reverse_nil, List.nil_append]
  rw [joinNL_splitlinesAux_noTrail _ _ hd'chars hd'last]
  simp only [List.reverse_nil, List.nil_append]
  rw [if_pos htm]
  -- stripping the already-trail-stripped remainder equals stripping d
  have hss : pyStrip (stripTrailIf isPySpace d) = pyStrip d := by
    simp only [pyStrip, pyStripIf]
    rw [stripTrailIf_idem]
  rw [hss, pyJsonLoads_strip, hparse]

/-- C10 witness: an unclosed fence around ` [1, 2]  ` (with surrounding
whitespace) still parses to the same value as the bare remainder. -/
theorem C10_unclosed_fence_witness :
    safe_json_parse (tick3 ++ ("json").data ++ '\n' :: ((" [1, 2]  ").data)) =
      pyJsonLoads ((" [1, 2]  ").data) ∧
    (pyJsonLoads ((" [1, 2]  ").data)).isSome = true := by
  have hsome : (pyJsonLoads ((" [1, 2]  ").data)).isSome = true := rfl
  obtain ⟨v, hv⟩ := Option.isSome_iff_exists.mp hsome
  refine ⟨?_, hsome⟩
  rw [hv]
  refine C10_unclosed_fence ((" [1, 2]  ").data) v (by decide) ?_ hv
  intro c hc
  have h2 : some ']' = some c := hc
  injection h2 with h3
  rw [← h3]
  decide
